import Mathlib

set_option maxRecDepth 40000

/-!
Verification development for the `cconv` heuristic C <-> C++ source
translator (`cconv/converter.py`).

The converter works purely on text, using Python `re` substitutions.  We
give a shallow embedding over `List Char`: every regular expression used by
the source is hand-translated into a character-level matcher with the same
semantics (leftmost non-overlapping substitution, greedy / non-greedy
groups, word boundaries, `re.MULTILINE` line anchors), and every Python
string helper the source uses (`strip`, `lstrip`, `split`, `splitlines`,
`join`, `replace`) is reproduced.  All definitions are computable so that
claims can be settled by evaluation on concrete inputs.
-/

namespace CConv

/-- Program text, modelling a Python `str` (ASCII inputs). -/
abbrev Str := List Char

/-- Convert a Lean string literal to program text. -/
def sl (s : String) : Str := s.toList

/-- Left brace character (avoids brace literals in strings). -/
def lbr : Char := Char.ofNat 123

/-- Right brace character. -/
def rbr : Char := Char.ofNat 125

/-- Python `\s` for the ASCII range: space, tab, newline, CR, FF, VT. -/
def isWS (c : Char) : Bool :=
  c = ' ' || c = '\t' || c = '\n' || c = '\r' || c = '\x0b' || c = '\x0c'

/-- `[0-9]`. -/
def isDigitC (c : Char) : Bool := '0' ≤ c && c ≤ '9'

/-- `[A-Za-z_]` (first character of an identifier). -/
def isAlphaU (c : Char) : Bool :=
  ('A' ≤ c && c ≤ 'Z') || ('a' ≤ c && c ≤ 'z') || c = '_'

/-- Python `\w` restricted to ASCII: `[A-Za-z0-9_]`. -/
def isWordC (c : Char) : Bool := isAlphaU c || isDigitC c

/-- Drop from the right while the predicate holds. -/
def dropEndWhile (p : Char → Bool) (s : Str) : Str :=
  (s.reverse.dropWhile p).reverse

/-- Python `str.strip()`: remove whitespace at both ends. -/
def pyStrip (s : Str) : Str := dropEndWhile isWS (s.dropWhile isWS)

/-- Python `str.lstrip()`. -/
def pyLstrip (s : Str) : Str := s.dropWhile isWS

/-- Python `str.strip('"')`: remove double quotes at both ends. -/
def stripQ (s : Str) : Str :=
  dropEndWhile (· = '"') (s.dropWhile (· = '"'))

/-- Python `str.split(sep)` for a one-character separator (keeps empty parts). -/
def splitChar (sep : Char) (s : Str) : List Str :=
  go s [] where
  go : Str → Str → List Str
    | [], acc => [acc.reverse]
    | c :: cs, acc => if c = sep then acc.reverse :: go cs [] else go cs (c :: acc)

/-- Python `str.splitlines()` for `\n`-separated text: like `splitChar '\n'`
but with no trailing empty line and `[]` on empty input. -/
def splitlinesPy (s : Str) : List Str :=
  if s = [] then []
  else
    let parts := splitChar '\n' s
    if s.getLast? = some '\n' then parts.dropLast else parts

/-- Python `"\n".join(lines)`. -/
def joinNL (ls : List Str) : Str := List.intercalate [ '\n' ] ls

/-- Python `", ".join` and friends. -/
def joinSep (sep : Str) (ls : List Str) : Str := List.intercalate sep ls

/-- Match a literal character sequence at the head, returning the rest. -/
def litP : Str → Str → Option Str
  | [], s => some s
  | p :: ps, c :: cs => if c = p then litP ps cs else none
  | _ :: _, [] => none

/-- Match a literal given as a Lean string. -/
def lit (pat : String) (s : Str) : Option Str := litP (pat.toList) s

/-- Match one specific character. -/
def chr (c : Char) : Str → Option Str
  | d :: r => if d = c then some r else none
  | [] => none

/-- Regex `\s*` (always succeeds). -/
def wsS (s : Str) : Str := s.dropWhile isWS

/-- Regex `\s+` (at least one whitespace character). -/
def ws1 : Str → Option Str
  | c :: r => if isWS c then some (r.dropWhile isWS) else none
  | [] => none

/-- Regex `\s+` returning the matched whitespace (needed where the source
captures it inside a group). -/
def wsCap (s : Str) : Option (Str × Str) :=
  let w := s.takeWhile isWS
  if w = [] then none else some (w, s.drop w.length)

/-- Regex `[A-Za-z_][A-Za-z0-9_]*` (greedy), returning (identifier, rest). -/
def identP (s : Str) : Option (Str × Str) :=
  match s with
  | c :: _ =>
    if isAlphaU c then
      let i := s.takeWhile isWordC
      some (i, s.drop i.length)
    else none
  | [] => none

/-- Regex `\s*([^X]+)` followed by the stop character `X`: greedy leading
whitespace (backtracking one step when the group would otherwise be empty),
group = the remaining run of non-`X` characters.  Returns (group, rest with
the stop character still present).  Fails when no non-empty group exists or
the stop character never occurs. -/
def grpUntil (stop : Char) (s : Str) : Option (Str × Str) :=
  let body := s.takeWhile (· ≠ stop)
  let rest := s.drop body.length
  if body = [] then none
  else if rest = [] then none
  else
    let w := (body.takeWhile isWS).length
    let g := if w < body.length then body.drop w else body.drop (body.length - 1)
    some (g, rest)

/-- Regex `(?:struct\s+)?` in front of an identifier/backreference.  The
optional branch is taken exactly when `struct`, whitespace, and a following
identifier character are present; as traced through every pattern of the
source that uses it, full regex backtracking never produces a different
overall match, so committing here is faithful. -/
def optStructPre (s : Str) : Str :=
  match lit ("struct") s with
  | some r =>
    match ws1 r with
    | some r2 => if (identP r2).isSome then r2 else s
    | none => s
  | none => s

/-- Membership of a `Str` in a list of `Str` (a Python `set` of names). -/
def elemS (xs : List Str) (x : Str) : Bool := xs.any (· = x)

/-- A deterministic non-capturing regex element: `\s*`, `\s+`, one literal
character, or a literal sequence (also used for backreferences). -/
inductive Pat : Type where
  | w : Pat
  | w1 : Pat
  | c : Char → Pat
  | l : Str → Pat

/-- Run a sequence of non-capturing elements against the text. -/
def runP : List Pat → Str → Option Str
  | [], s => some s
  | Pat.w :: ps, s => runP ps (wsS s)
  | Pat.w1 :: ps, s => (ws1 s).bind (runP ps)
  | Pat.c ch :: ps, s => (chr ch s).bind (runP ps)
  | Pat.l t :: ps, s => (litP t s).bind (runP ps)

/-- First-match association lookup (Python `dict.get`; maps are built by
prepending, so the most recently written binding wins, matching dict
assignment semantics). -/
def alookup {β : Type} : List (Str × β) → Str → Option β
  | [], _ => none
  | (k, v) :: t, x => if k = x then some v else alookup t x

/-- Generic engine for `re.sub` with a replacement callback: scan left to
right, at each position try the matcher; on a match emit its replacement and
continue after the match, otherwise keep the character and advance.  `κ` is
left-context the matcher may need (line-start flag, previous character, ...),
updated from each consumed character by `upd`; `σ` is the state threaded
through replacement callbacks (the allocation-kind record). -/
def reSubF {κ σ : Type} (upd : Char → κ) (m : κ → σ → Str → Option (σ × Str × Str)) :
    Nat → κ → σ → Str → σ × Str
  | _, _, st, [] => (st, [])
  | 0, _, st, s => (st, s)
  | Nat.succ f, k, st, c :: cs =>
    match m k st (c :: cs) with
    | some (st1, rep, rest) =>
      if rest.length < (c :: cs).length then
        let k1 := match ((c :: cs).take ((c :: cs).length - rest.length)).getLast? with
          | some d => upd d
          | none => k
        let r := reSubF upd m f k1 st1 rest
        (r.1, rep ++ r.2)
      else
        let r := reSubF upd m f (upd c) st cs
        (r.1, c :: r.2)
    | none =>
      let r := reSubF upd m f (upd c) st cs
      (r.1, c :: r.2)

/-- The driver with its fuel instantiated: every step consumes at least one
character, so fuel equal to the length never runs out. -/
def reSubG {κ σ : Type} (upd : Char → κ) (m : κ → σ → Str → Option (σ × Str × Str))
    (k : κ) (st : σ) (s : Str) : σ × Str :=
  reSubF upd m s.length k st s

/-- Generic engine for `re.finditer`/`re.findall`: collect captures of
non-overlapping leftmost matches. -/
def reFindF {κ α : Type} (upd : Char → κ) (m : κ → Str → Option (α × Str)) :
    Nat → κ → Str → List α
  | _, _, [] => []
  | 0, _, _ => []
  | Nat.succ f, k, c :: cs =>
    match m k (c :: cs) with
    | some (a, rest) =>
      if rest.length < (c :: cs).length then
        let k1 := match ((c :: cs).take ((c :: cs).length - rest.length)).getLast? with
          | some d => upd d
          | none => k
        a :: reFindF upd m f k1 rest
      else reFindF upd m f (upd c) cs
    | none => reFindF upd m f (upd c) cs

/-- The scan driver with its fuel instantiated. -/
def reFindG {κ α : Type} (upd : Char → κ) (m : κ → Str → Option (α × Str))
    (k : κ) (s : Str) : List α :=
  reFindF upd m s.length k s

/-- `re.sub` with a context-free pattern. -/
def reSubP (m : Str → Option (Str × Str)) (s : Str) : Str :=
  (reSubG (fun _ => ()) (fun _ _ t => (m t).map fun p => ((), p.1, p.2)) () () s).2

/-- `re.sub` where the pattern consults the previous character (for `\b`).
The flag is `true` when the previous character is a word character. -/
def reSubW (m : Bool → Str → Option (Str × Str)) (s : Str) : Str :=
  (reSubG isWordC (fun k _ t => (m k t).map fun p => ((), p.1, p.2)) false () s).2

/-- `re.sub` where the pattern is anchored with `^` under `re.MULTILINE`.
The flag is `true` at the start of a line. -/
def reSubL (m : Bool → Str → Option (Str × Str)) (s : Str) : Str :=
  (reSubG (fun c => c == '\n') (fun k _ t => (m k t).map fun p => ((), p.1, p.2)) true () s).2

/-- `re.sub` where the pattern starts with `(?:^|;)` (plain `^`, i.e. only
at position 0).  The flag is `true` only at the very first position. -/
def reSub0 {σ : Type} (m : Bool → σ → Str → Option (σ × Str × Str)) (st : σ) (s : Str) :
    σ × Str :=
  reSubG (fun _ => false) m true st s

/-- Stateful `re.sub` with a context-free pattern (allocation passes). -/
def reSubSt {σ : Type} (m : σ → Str → Option (σ × Str × Str)) (st : σ) (s : Str) :
    σ × Str :=
  reSubG (fun _ => ()) (fun _ => m) () st s

/-- `re.findall` with a context-free pattern. -/
def reFindP {α : Type} (m : Str → Option (α × Str)) (s : Str) : List α :=
  reFindG (fun _ => ()) (fun _ => m) () s

/-- `re.finditer` with a `^`-anchored pattern under `re.MULTILINE`. -/
def reFindL {α : Type} (m : Bool → Str → Option (α × Str)) (s : Str) : List α :=
  reFindG (fun c => c == '\n') m true s

/-- Substring containment (used only to state claims). -/
def containsSub (s pat : Str) : Bool :=
  match s with
  | [] => decide (pat = [])
  | _ :: cs => (litP pat s).isSome || containsSub cs pat

/-! ## `_split_printf_args`: quote- and parenthesis-aware comma splitter -/

/-- Loop body of `_split_printf_args`: state is (accumulated parts, reversed
current buffer, open quote character, parenthesis depth).  Mirrors the Python
loop case by case, including: quote characters always appended to the buffer,
parentheses tracked only outside quotes, a part emitted (stripped) at each
top-level comma, and the final buffer appended only when non-empty. -/
def splitArgsGo : Str → List Str → Str → Option Char → Nat → List Str
  | [], parts, buf, _, _ =>
    (if buf = [] then parts else pyStrip buf.reverse :: parts).reverse
  | ch :: rest, parts, buf, q, depth =>
    if ch = '"' ∨ ch = '\'' then
      match q with
      | none => splitArgsGo rest parts (ch :: buf) (some ch) depth
      | some qc =>
        if qc = ch then splitArgsGo rest parts (ch :: buf) none depth
        else splitArgsGo rest parts (ch :: buf) (some qc) depth
    else if ch = '(' ∧ q = none then splitArgsGo rest parts (ch :: buf) q (depth + 1)
    else if ch = ')' ∧ q = none ∧ 0 < depth then splitArgsGo rest parts (ch :: buf) q (depth - 1)
    else if ch = ',' ∧ q = none ∧ depth = 0 then
      splitArgsGo rest (pyStrip buf.reverse :: parts) [] q depth
    else splitArgsGo rest parts (ch :: buf) q depth

/-- `_split_printf_args(args)`. -/
def splitArgs (args : Str) : List Str := splitArgsGo args [] [] none 0

/-! ## `_convert_printf_to_cout` / `_convert_scanf_to_cin` -/

/-- Regex `%[0-9]*\.?[0-9]*[dlfcsg]` matched at the head (the format-specifier
token of the printf rewrite).  Committing to the optional `.` is faithful:
if the final class character fails after taking the dot, the dot-free branch
fails there as well. -/
def specAt (s : Str) : Option (Str × Str) := do
  let r1 ← chr '%' s
  let d1 := r1.takeWhile isDigitC
  let r2 := r1.drop d1.length
  let dotTaken := r2.head? = some '.'
  let r3 := if dotTaken then r2.drop 1 else r2
  let d2 := r3.takeWhile isDigitC
  let r4 := r3.drop d2.length
  match r4 with
  | c :: r5 =>
    if c = 'd' ∨ c = 'l' ∨ c = 'f' ∨ c = 'c' ∨ c = 's' ∨ c = 'g' then
      some ('%' :: (d1 ++ (if dotTaken then [ '.' ] else []) ++ d2 ++ [c]), r5)
    else none
  | [] => none

/-- `re.split` on the captured specifier pattern: literal pieces interleaved
with specifier matches, empty pieces included (as Python produces them). -/
def splitSpecGo : Nat → Str → Str → List Str
  | _, [], acc => [acc.reverse]
  | 0, s, acc => [acc.reverse ++ s]
  | Nat.succ f, c :: cs, acc =>
    match specAt (c :: cs) with
    | some (sp, rest) =>
      if rest.length < (c :: cs).length then
        acc.reverse :: sp :: splitSpecGo f rest []
      else splitSpecGo f cs (c :: acc)
    | none => splitSpecGo f cs (c :: acc)

/-- Tokens of the format literal: literals and specifiers, in order. -/
def splitSpec (s : Str) : List Str := splitSpecGo s.length s []

/-- Python `tok.replace("\\", "\\\\")`. -/
def escBS (s : Str) : Str := (s.map fun c => if c = '\\' then ['\\', '\\'] else [c]).flatten

/-- Python `tok.replace("\"", "\\\"")` (applied second, as in the source). -/
def escQ (s : Str) : Str := (s.map fun c => if c = '"' then ['\\', '"'] else [c]).flatten

/-- The full literal re-escaping of `_convert_printf_to_cout`. -/
def escLit (s : Str) : Str := escQ (escBS s)

/-- Python `tok.endswith("\\n")`: last two characters are backslash, `n`. -/
def endsBSn (s : Str) : Bool :=
  match s.reverse with
  | 'n' :: '\\' :: _ => true
  | _ => false

/-- The greedy group of `re.match(r"printf\s*\((.*)\)\s*;\s*", call, re.DOTALL)`
after the opening parenthesis: the text up to the *last* `)` that is followed
by optional whitespace and `;` (any tail after the `;` is outside the match
and dropped, exactly as with `re.match` prefix matching).  Implemented by
scanning the reversed text for the last such `);` pair. -/
def lastInnerGo : Str → Option Str
  | [] => none
  | c :: cs =>
    if c = ';' then
      match cs.dropWhile isWS with
      | ')' :: r2 => some r2.reverse
      | _ => lastInnerGo cs
    else lastInnerGo cs

/-- Parse `KEYWORD\s*\(` then the greedy argument group as above. -/
def parseCallArgs (kw : String) (call : Str) : Option Str := do
  let r ← lit kw call
  let r2 := wsS r
  let r3 ← chr '(' r2
  lastInnerGo r3.reverse

/-- Token loop of `_convert_printf_to_cout`: walk literal/specifier tokens,
consuming one positional argument per specifier (a quoted copy of the
specifier itself when the arguments run out), re-escaping literal fragments,
stripping a trailing `\n` from any literal token into the `newline` flag, and
appending one `<< std::endl` at the end when that flag is set. -/
def cpGo : List Str → List Str → Str → Bool → Str
  | [], _, out, nl => out ++ (if nl then sl (" << std::endl") else []) ++ [';']
  | t :: ts, vars, out, nl =>
    if t = [] then cpGo ts vars out nl
    else if t.head? = some '%' then
      match vars with
      | [] => cpGo ts [] (out ++ sl (" << \"") ++ t ++ ['"']) nl
      | v :: vs => cpGo ts vs (out ++ sl (" << (") ++ v ++ [')']) nl
    else
      let strip := endsBSn t
      let nl2 := strip || nl
      let t2 := if strip then t.take (t.length - 2) else t
      if t2 = [] then cpGo ts vars out nl2
      else cpGo ts vars (out ++ sl (" << \"") ++ escLit t2 ++ ['"']) nl2

/-- `_convert_printf_to_cout(call)`.  (The Python `specs` local is computed
but never used; it is omitted.) -/
def convPrintf (call : Str) : Str :=
  match parseCallArgs ("printf") call with
  | none => call
  | some inner =>
    match splitArgs inner with
    | [] => call
    | fmt :: rest =>
      if fmt.head? = some '"' ∨ fmt.head? = some '\'' then
        cpGo (splitSpec (stripQ (pyStrip fmt))) rest (sl ("std::cout")) false
      else call

/-- `_convert_scanf_to_cin(call, types)`.  The Python function ignores its
`types` parameter and the computed `fmt_str`/`specs` locals entirely; each
argument after the format literal has its leading `&`s removed (`lstrip('&')`)
and is stripped, then chained with `>>` insertions. -/
def convScanf (call : Str) : Str :=
  match parseCallArgs ("scanf") call with
  | none => call
  | some inner =>
    match splitArgs inner with
    | [] => call
    | fmt :: rest =>
      if fmt.head? = some '"' ∨ fmt.head? = some '\'' then
        let vars := rest.map fun a => pyStrip (a.dropWhile (· = '&'))
        sl ("std::cin") ++ (vars.map fun v => sl (" >> (") ++ v ++ [')']).flatten ++ [';']
      else call

/-- Non-greedy `\(.*?\)\s*;` after the keyword in the per-line call regex:
the group is the shortest newline-free run ending at a `)` whose first
following non-whitespace character is `;`.  Returns the rest after the `;`. -/
def firstCloseGo : Str → Option Str
  | [] => none
  | c :: cs =>
    if c = ')' then
      match cs.dropWhile isWS with
      | ';' :: r2 => some r2
      | _ => if c = '\n' then none else firstCloseGo cs
    else if c = '\n' then none
    else firstCloseGo cs

/-- Matcher for `KEYWORD\s*\(.*?\)\s*;` used in the per-line substitutions of
`convert_c_to_cpp`; the replacement is `conv` applied to the matched text
(the Python lambdas pass `m.group(0)` to the converters). -/
def mCallLine (kw : String) (conv : Str → Str) (s : Str) : Option (Str × Str) := do
  let r ← lit kw s
  let r2 := wsS r
  let r3 ← chr '(' r2
  let rest ← firstCloseGo r3
  pure (conv (s.take (s.length - rest.length)), rest)

/-- The `printf` substitution applied to one line. -/
def subPrintfLine (l : Str) : Str := reSubP (mCallLine ("printf") convPrintf) l

/-- The `scanf` substitution applied to one line. -/
def subScanfLine (l : Str) : Str := reSubP (mCallLine ("scanf") convScanf) l

/-! ## `_collect_typedefs` / `_infer_decl_types` -/

/-- Pattern `typedef\s+struct\s+(A)\s+(B)\s*;` yielding `(B, "struct A")`. -/
def mT1 (s : Str) : Option ((Str × Str) × Str) := do
  let r ← lit ("typedef") s
  let r ← ws1 r
  let r ← lit ("struct") r
  let r ← ws1 r
  let (a, r2) ← identP r
  let r3 ← ws1 r2
  let (b, r4) ← identP r3
  let r5 ← chr ';' (wsS r4)
  pure ((b, sl ("struct ") ++ a), r5)

/-- Pattern `typedef\s+struct\s+(A)\s*\{[^}]*\}\s*(B)\s*;` yielding
`(B, "struct A")` (the body is the run of non-`}` characters). -/
def mT2 (s : Str) : Option ((Str × Str) × Str) := do
  let r ← lit ("typedef") s
  let r ← ws1 r
  let r ← lit ("struct") r
  let r ← ws1 r
  let (a, r2) ← identP r
  let r3 ← chr lbr (wsS r2)
  let body := r3.takeWhile (· ≠ rbr)
  let r4 ← chr rbr (r3.drop body.length)
  let (b, r5) ← identP (wsS r4)
  let r6 ← chr ';' (wsS r5)
  pure ((b, sl ("struct ") ++ a), r6)

/-- Shared tail `\s+(B)\s*;` of the generic typedef pattern. -/
def t3tail (s : Str) : Option (Str × Str) := do
  let r ← ws1 s
  let (b, r2) ← identP r
  let r3 ← chr ';' (wsS r2)
  pure (b, r3)

/-- Pattern `typedef\s+((?:struct\s+)?Base)\s+(Alias)\s*;` yielding
`(Alias, Base)` where the captured base keeps the exact matched text
(including the whitespace after `struct`).  The optional `struct` branch is
tried first and falls back to the plain branch on failure of the whole rest,
reproducing regex backtracking (e.g. `typedef struct A;` records
`A -> struct`). -/
def mT3 (s : Str) : Option ((Str × Str) × Str) := do
  let r ← lit ("typedef") s
  let r ← ws1 r
  match (do
    let r1 ← lit ("struct") r
    let (w, r2) ← wsCap r1
    let (i, r3) ← identP r2
    let (b, r4) ← t3tail r3
    pure ((b, sl ("struct") ++ w ++ i), r4) : Option ((Str × Str) × Str)) with
  | some res => some res
  | none => do
    let (i, r3) ← identP r
    let (b, r4) ← t3tail r3
    pure ((b, i), r4)

/-- `_collect_typedefs(code)`: the three scans in source order; the first two
assign (overwriting), the third uses `setdefault` (first writer wins).  The
map is represented as an association list where the head is the most recent
binding. -/
def collectTypedefs (code : Str) : List (Str × Str) :=
  let m1 := (reFindP mT1 code).foldl (fun m p => p :: m) []
  let m2 := (reFindP mT2 code).foldl (fun m p => p :: m) m1
  (reFindP mT3 code).foldl (fun m p => if (alookup m p.1).isSome then m else p :: m) m2

/-- Pattern `struct\s+(Tag)\s*\{` collecting declared struct tag names. -/
def mStructName (s : Str) : Option (Str × Str) := do
  let r ← lit ("struct") s
  let r ← ws1 r
  let (a, r2) ← identP r
  let r3 ← chr lbr (wsS r2)
  pure (a, r3)

/-- The `struct Tag { ... }` tag names of the source. -/
def structNames (code : Str) : List Str := reFindP mStructName code

/-- Tail `\s+([^;]+);` of the declaration-line pattern: whitespace, then the
non-empty run of non-`;` characters (which may span lines), then `;`. -/
def dTail (s : Str) : Option (Str × Str) := do
  let r ← ws1 s
  let rest := r.takeWhile (· ≠ ';')
  if rest = [] then none
  else do
    let r2 ← chr ';' (r.drop rest.length)
    pure (rest, r2)

/-- Declaration-line pattern `^((?:struct\s+)?Type)\s+([^;]+);` under
`re.MULTILINE`: only matches at a line start; the type token keeps its exact
matched text.  The optional `struct` branch backtracks to the plain branch
when the rest of the pattern fails (so `struct x;` matches with type
`struct`). -/
def mDecl (ls : Bool) (s : Str) : Option ((Str × Str) × Str) :=
  if ls then
    match (do
      let r1 ← lit ("struct") s
      let (w, r2) ← wsCap r1
      let (i, r3) ← identP r2
      let (rest, r4) ← dTail r3
      pure ((sl ("struct") ++ w ++ i, rest), r4) : Option ((Str × Str) × Str)) with
    | some res => some res
    | none => do
      let (i, r3) ← identP s
      let (rest, r4) ← dTail r3
      pure ((i, rest), r4)
  else none

/-- All `(type-token, declarator-list)` matches of the declaration pattern. -/
def declsOf (code : Str) : List (Str × Str) := reFindL mDecl code

/-- The Python loop `while q.startswith("*"): stars += 1; q = q[1:].lstrip()`.
Fuel is the string length; each step strictly shortens the string. -/
def starCountGo : Nat → Str → Nat × Str
  | 0, s => (0, s)
  | Nat.succ f, s =>
    match s with
    | '*' :: r =>
      let p := starCountGo f (pyLstrip r)
      (p.1 + 1, p.2)
    | _ => (0, s)

/-- Leading pointer stars of a declarator, and the remaining text. -/
def starCount (p : Str) : Nat × Str := starCountGo p.length p

/-- `_infer_decl_types(code)`: variable name to declared C type (base type
resolved through the typedef table, with one `*` per leading star). -/
def inferDeclTypes (code : Str) : List (Str × Str) :=
  let tdefs := collectTypedefs code
  let sns := structNames code
  (declsOf code).foldl (fun types tr =>
    let t := tr.1
    -- `t in base_types  or  t in typedefs  or  t.startswith("struct ")`
    let accept :=
      elemS [sl ("int"), sl ("long"), sl ("float"), sl ("double"), sl ("char")] t
      || sns.any (fun s => t = sl ("struct ") ++ s)
      || (alookup tdefs t).isSome
      || (litP (sl ("struct ")) t).isSome
    if accept then
      (splitChar ',' tr.2).foldl (fun types2 part =>
        let p := pyStrip part
        let sc := starCount p
        match identP sc.2 with
        | none => types2
        | some (name, _) =>
          let base := (alookup tdefs t).getD t
          (name, base ++ List.replicate sc.1 '*') :: types2) types
    else types) []

/-! ## `_fmt_for_type` / `_expr_ctype` -/

/-- `_fmt_for_type(ctype)`: exact-type table (which includes `char*`), then
the star-stripped base-type table, then `%d`. -/
def fmtForType (ct : Str) : Str :=
  if ct = sl ("int") then sl ("%d")
  else if ct = sl ("long") then sl ("%ld")
  else if ct = sl ("float") then sl ("%f")
  else if ct = sl ("double") then sl ("%lf")
  else if ct = sl ("char") then sl ("%c")
  else if ct = sl ("char*") then sl ("%s")
  else
    let base := ct.filter (· ≠ '*')
    if base = sl ("int") then sl ("%d")
    else if base = sl ("long") then sl ("%ld")
    else if base = sl ("float") then sl ("%f")
    else if base = sl ("double") then sl ("%lf")
    else if base = sl ("char") then sl ("%c")
    else sl ("%d")

/-- Full match of a bare identifier. -/
def isIdentStr (e : Str) : Bool :=
  match e with
  | [] => false
  | c :: cs => isAlphaU c && cs.all isWordC

/-- Full match of `\*\s*\(?\s*(id)\s*\)?` (a dereference, parentheses
optional and unbalanced forms accepted, exactly as the regex does). -/
def derefVar (e : Str) : Option Str := do
  let r ← chr '*' e
  let r2 := wsS r
  let r3 := match chr '(' r2 with
    | some r4 => wsS r4
    | none => r2
  let (v, r5) ← identP r3
  let r6 := wsS r5
  let r7 := match chr ')' r6 with
    | some r8 => r8
    | none => r6
  if r7 = [] then some v else none

/-- Full match of `(id)\s*\[.+\]`: identifier, `[`, a non-empty newline-free
body, closing `]` at the very end. -/
def indexVar (e : Str) : Option Str := do
  let (v, r) ← identP e
  let r2 ← chr '[' (wsS r)
  if r2.getLast? = some ']' then
    let inner := r2.take (r2.length - 1)
    if inner ≠ [] ∧ inner.all (· ≠ '\n') then some v else none
  else none

/-- `_expr_ctype(expr, types)`: bare variable, dereference (pointee type),
or index (pointee type); anything else is unresolved. -/
def exprCtype (e0 : Str) (types : List (Str × Str)) : Option Str :=
  let e := pyStrip e0
  if isIdentStr e then alookup types e
  else
    match derefVar e with
    | some v =>
      match alookup types v with
      | some t => if t.getLast? = some '*' then some t.dropLast else none
      | none => none
    | none =>
      match indexVar e with
      | some v =>
        match alookup types v with
        | some t => if t.getLast? = some '*' then some t.dropLast else none
        | none => none
      | none => none

/-! ## `convert_cpp_to_c`: cout/cin rewriting, token substitution, new/delete -/

/-- `re.split` on a fixed separator string (leftmost, non-overlapping). -/
def splitSubGo (sep : Str) : Nat → Str → Str → List Str
  | _, [], acc => [acc.reverse]
  | 0, s, acc => [acc.reverse ++ s]
  | Nat.succ f, c :: cs, acc =>
    match litP sep (c :: cs) with
    | some rest =>
      if rest.length < (c :: cs).length then acc.reverse :: splitSubGo sep f rest []
      else splitSubGo sep f cs (c :: acc)
    | none => splitSubGo sep f cs (c :: acc)

/-- `re.split(sep, s)` for a literal separator. -/
def splitSub (sep : Str) (s : Str) : List Str := splitSubGo sep s.length s []

/-- Body of `cout_repl`: walk the `<<`-separated tokens; `std::endl`
contributes a `\n` to the format string, a quoted token contributes its
stripped literal text, any other token contributes the format specifier of
its inferred type (default `int`) and joins the argument list.  (The source
rebuilds the type map from the same enclosing `code` for every value token;
the map is a pure function of that text, so it is computed once here.) -/
def coutRepl (tmap : List (Str × Str)) (expr : Str) : Str :=
  let parts := (splitSub (sl ("<<")) expr).map pyStrip
  let st := parts.foldl (fun (acc : Str × List Str) p =>
    if p = sl ("std::endl") then (acc.1 ++ ['\\', 'n'], acc.2)
    else if p.head? = some '"' then (acc.1 ++ stripQ (pyStrip p), acc.2)
    else
      let ct := match exprCtype p tmap with
        | some c => if c = [] then sl ("int") else c
        | none => sl ("int")
      (acc.1 ++ fmtForType ct, acc.2 ++ [p])) ([], [])
  let args := if st.2 = [] then [] else sl (", ") ++ joinSep (sl (", ")) st.2
  sl ("printf(\"") ++ st.1 ++ ['"'] ++ args ++ sl (");")

/-- The non-greedy `(.*?);` group of the `std::cout`/`std::cin` statement
patterns: shortest newline-free run up to a `;`.  Returns (group, rest). -/
def firstSemiNoNL : Str → Option (Str × Str)
  | [] => none
  | c :: cs =>
    if c = ';' then some ([], cs)
    else if c = '\n' then none
    else
      match firstSemiNoNL cs with
      | some (g, r) => some (c :: g, r)
      | none => none

/-- Matcher for `std::cout\s*<<(.*?);`. -/
def mCout (tmap : List (Str × Str)) (s : Str) : Option (Str × Str) := do
  let r ← lit ("std::cout") s
  let r2 ← lit ("<<") (wsS r)
  let (g, rest) ← firstSemiNoNL r2
  pure (coutRepl tmap g, rest)

/-- The `std::cout` substitution pass of `convert_cpp_to_c`. -/
def subCout (code : Str) : Str := reSubP (mCout (inferDeclTypes code)) code

/-- Body of `cin_repl`: one `%d` per `>>`-separated target (no type
inference in this direction), `&` prepended to each target text. -/
def cinRepl (expr : Str) : Str :=
  let vars := (splitSub (sl (">>")) expr).map pyStrip
  let fmt := joinSep [ ' ' ] (vars.map fun _ => sl ("%d"))
  let args := joinSep (sl (", ")) (vars.map fun v => '&' :: v)
  sl ("scanf(\"") ++ fmt ++ sl ("\", ") ++ args ++ sl (");")

/-- Matcher for `std::cin\s*>>(.*?);`. -/
def mCin (s : Str) : Option (Str × Str) := do
  let r ← lit ("std::cin") s
  let r2 ← lit (">>") (wsS r)
  let (g, rest) ← firstSemiNoNL r2
  pure (cinRepl g, rest)

/-- The `std::cin` substitution pass of `convert_cpp_to_c`. -/
def subCin (code : Str) : Str := reSubP mCin code

/-- Matcher for `\bWORD\b` with replacement `rep`; `prevW` is true when the
preceding character is a word character (so the boundary fails). -/
def mWord (w : String) (rep : String) (prevW : Bool) (s : Str) : Option (Str × Str) :=
  if prevW then none
  else do
    let r ← lit w s
    match r.head? with
    | some c => if isWordC c then none else some (sl rep, r)
    | none => some (sl rep, r)

/-- `re.sub(r"\bWORD\b", rep, s)`. -/
def subWord (w rep : String) (s : Str) : Str := reSubW (mWord w rep) s

/-- The `\s*$` tail of the `^\s*#\s*include\s*<hdr>\s*$` patterns under
`re.MULTILINE`: consume the longest whitespace prefix after which the text
is exhausted or the next character is a newline (greedy with backtracking,
so blank lines following the include can be absorbed into the match). -/
def endAnchorTry (rest : Str) : Nat → Option Str
  | 0 => if rest = [] ∨ rest.head? = some '\n' then some rest else none
  | Nat.succ j =>
    let r := rest.drop (j + 1)
    if r = [] ∨ r.head? = some '\n' then some r else endAnchorTry rest j

/-- Greedy `\s*$` at a line end. -/
def endAnchor (rest : Str) : Option Str := endAnchorTry rest (rest.takeWhile isWS).length

/-- Matcher for `^\s*#\s*include\s*<hdr>\s*$` (multiline), anchored at a
line start; note the leading `\s*` may itself span newlines. -/
def mIncl (hdr : String) (rep : String) (ls : Bool) (s : Str) : Option (Str × Str) :=
  if ls then do
    let r ← chr '#' (wsS s)
    let r2 ← lit ("include") (wsS r)
    let r3 ← lit hdr (wsS r2)
    let r4 ← endAnchor r3
    pure (sl rep, r4)
  else none

/-- The `#include <stdio.h>` -> `#include <iostream>` substitution.  (The
source guards the `sub` with a `search`; when the search fails the `sub` is
the identity, so applying the substitution unconditionally is equal.) -/
def subInclStdio (code : Str) : Str :=
  reSubL (mIncl ("<stdio.h>") ("#include <iostream>")) code

/-- The `#include <iostream>` -> stdio+stdlib two-line substitution. -/
def subInclIostream (code : Str) : Str :=
  reSubL (mIncl ("<iostream>") ("#include <stdio.h>\n#include <stdlib.h>")) code

/-- Pattern `new\s+(T)\s*\[\s*([^\]]+)\s*\]` with replacement
`(\1*)malloc(sizeof(\1) * (\2))`. -/
def mNewArr (s : Str) : Option (Str × Str) := do
  let r ← lit ("new") s
  let r ← ws1 r
  let (t, r2) ← identP r
  let r3 ← chr '[' (wsS r2)
  let (n, r4) ← grpUntil ']' r3
  let r5 ← chr ']' r4
  pure (sl ("(") ++ t ++ sl ("*)malloc(sizeof(") ++ t ++ sl (") * (") ++ n ++ sl ("))"), r5)

/-- Pattern `new\s+(T)\b(?!\s*\[)` with replacement `(\1*)malloc(sizeof(\1))`.
After the greedy identifier the word boundary always holds; when the
lookahead sees `[` the whole position fails (backtracking to a shorter
identifier would break the boundary). -/
def mNewScal (s : Str) : Option (Str × Str) := do
  let r ← lit ("new") s
  let r ← ws1 r
  let (t, r2) ← identP r
  if (wsS r2).head? = some '[' then none
  else pure (sl ("(") ++ t ++ sl ("*)malloc(sizeof(") ++ t ++ sl ("))"), r2)

/-- Pattern `delete\s*\[\s*\]\s*(name)\s*;` with replacement `free(name);`. -/
def mDelArr (s : Str) : Option (Str × Str) := do
  let r ← lit ("delete") s
  let r2 ← chr '[' (wsS r)
  let r3 ← chr ']' (wsS r2)
  let (n, r4) ← identP (wsS r3)
  let r5 ← chr ';' (wsS r4)
  pure (sl ("free(") ++ n ++ sl (");"), r5)

/-- Pattern `delete\s+(name)\s*;` with replacement `free(name);`. -/
def mDelScal (s : Str) : Option (Str × Str) := do
  let r ← lit ("delete") s
  let r ← ws1 r
  let (n, r2) ← identP r
  let r3 ← chr ';' (wsS r2)
  pure (sl ("free(") ++ n ++ sl (");"), r3)

/-- `_convert_new_delete_to_malloc_free(code)`: the four substitutions in
source order. -/
def convNewDelete (code : Str) : Str :=
  let code := reSubP mNewArr code
  let code := reSubP mNewScal code
  let code := reSubP mDelArr code
  reSubP mDelScal code

/-- `convert_cpp_to_c(code)`: include substitution, cout/cin rewriting,
token substitutions (nullptr/bool/true/false), then new/delete rewriting. -/
def convert_cpp_to_c (code : Str) : Str :=
  let code := subInclIostream code
  let code := subCout code
  let code := subCin code
  let code := subWord ("nullptr") ("NULL") code
  let code := subWord ("bool") ("int") code
  let code := subWord ("true") ("1") code
  let code := subWord ("false") ("0") code
  convNewDelete code

/-! ## `_convert_malloc_free_to_new_delete` -/

/-- Allocation kind recorded per identifier (`'array'` / `'scalar'`). -/
inductive AKind : Type where
  | arr : AKind
  | scal : AKind

/-- The per-pass allocation-kind record (`allocs`). -/
abbrev Alloc := List (Str × AKind)

/-- Pattern `realloc\s*\(\s*([A-Za-z_]\w*)\s*,` for the exclusion scan. -/
def mRealloc (s : Str) : Option (Str × Str) := do
  let r ← lit ("realloc") s
  let r2 ← chr '(' (wsS r)
  let (n, r3) ← identP (wsS r2)
  let r4 ← chr ',' (wsS r3)
  pure (n, r4)

/-- The realloc-exclusion set: first arguments of `realloc(...)` calls. -/
def reallocNames (code : Str) : List Str := reFindP mRealloc code

/-- Pattern (a): `name = (T*) malloc(sizeof(T) * N);` — captures
(name, T, N).  Note the source writes `sizeof\(` with no `\s*` before the
parenthesis. -/
def mMallocArr (s : Str) : Option ((Str × Str × Str) × Str) := do
  let (name, r0) ← identP s
  let r1 ← runP [Pat.w, Pat.c '=', Pat.w, Pat.c '(', Pat.w] r0
  let (t, r2) ← identP (optStructPre r1)
  let r3 ← runP [Pat.w, Pat.c '*', Pat.w, Pat.c ')', Pat.w, Pat.l (sl ("malloc")),
    Pat.w, Pat.c '(', Pat.w, Pat.l (sl ("sizeof")), Pat.c '(', Pat.w] r2
  let r4 ← litP t (optStructPre r3)
  let r5 ← runP [Pat.w, Pat.c ')', Pat.w, Pat.c '*'] r4
  let (n, r6) ← grpUntil ')' r5
  let r7 ← runP [Pat.c ')', Pat.w, Pat.c ';'] r6
  pure ((name, t, n), r7)

/-- Pattern (b): `name = (T*) malloc(sizeof(T));` — captures (name, T). -/
def mMallocScal (s : Str) : Option ((Str × Str) × Str) := do
  let (name, r0) ← identP s
  let r1 ← runP [Pat.w, Pat.c '=', Pat.w, Pat.c '(', Pat.w] r0
  let (t, r2) ← identP (optStructPre r1)
  let r3 ← runP [Pat.w, Pat.c '*', Pat.w, Pat.c ')', Pat.w, Pat.l (sl ("malloc")),
    Pat.w, Pat.c '(', Pat.w, Pat.l (sl ("sizeof")), Pat.c '(', Pat.w] r2
  let r4 ← litP t (optStructPre r3)
  let r5 ← runP [Pat.w, Pat.c ')', Pat.w, Pat.c ')', Pat.w, Pat.c ';'] r4
  pure ((name, t), r5)

/-- Pattern (c): `name = [(T*)] malloc(sizeof(*name) [* N]);` — captures
(name, optional cast type, optional count).  Committing to the optional cast
is faithful: without it the next literal must be `malloc`, which cannot
begin with `(`; likewise for the optional `* N` part, whose failure implies
failure of the cast-free alternative as well. -/
def mMallocSzPtr (s : Str) : Option ((Str × Option Str × Option Str) × Str) := do
  let (name, r0) ← identP s
  let r1 ← runP [Pat.w, Pat.c '=', Pat.w] r0
  let (tOpt, r2) := match (do
      let a ← chr '(' r1
      let (tt, b) ← identP (optStructPre (wsS a))
      let d ← runP [Pat.w, Pat.c '*', Pat.w, Pat.c ')', Pat.w] b
      pure (tt, d) : Option (Str × Str)) with
    | some (tt, d) => (some tt, d)
    | none => (none, r1)
  let r3 ← runP [Pat.l (sl ("malloc")), Pat.w, Pat.c '(', Pat.w, Pat.l (sl ("sizeof")),
    Pat.w, Pat.c '(', Pat.w, Pat.c '*', Pat.w] r2
  let r4 ← litP name r3
  let r5 ← runP [Pat.w, Pat.c ')', Pat.w] r4
  let (nOpt, r6) := match r5 with
    | '*' :: rr =>
      match grpUntil ')' rr with
      | some (n, r7) => (some n, r7)
      | none => (none, r5)
    | _ => (none, r5)
  let r8 ← runP [Pat.c ')', Pat.w, Pat.c ';'] r6
  pure ((name, tOpt, nOpt), r8)

/-- Shared head of patterns (d): `\s*(?:struct\s+)?(T)\s*\*\s*(name)\s*=\s*`
`malloc\s*\(\s*sizeof\((?:struct\s+)?\1\s*\)` — after the `(?:^|;)` lead. -/
def lhsHead (s : Str) : Option ((Str × Str) × Str) := do
  let (t, r0) ← identP (optStructPre (wsS s))
  let r1 ← runP [Pat.w, Pat.c '*', Pat.w] r0
  let (name, r2) ← identP r1
  let r3 ← runP [Pat.w, Pat.c '=', Pat.w, Pat.l (sl ("malloc")), Pat.w, Pat.c '(',
    Pat.w, Pat.l (sl ("sizeof")), Pat.c '(', Pat.w] r2
  let r4 ← litP t (optStructPre r3)
  let r5 ← runP [Pat.w, Pat.c ')'] r4
  pure ((t, name), r5)

/-- Pattern (d), array form: `(?:^|;) T* name = malloc(sizeof(T) * N);`.
The `^` alternative applies only at position 0 (`first`); the `;`
alternative consumes the semicolon, which the replacement does not restore
(a quirk of the source preserved here). -/
def mLhsArr (first : Bool) (s : Str) : Option ((Str × Str × Str) × Str) :=
  let body := fun (r : Str) => (do
    let ((t, name), r10) ← lhsHead r
    let r11 ← chr '*' (wsS r10)
    let (n, r12) ← grpUntil ')' r11
    let r13 ← chr ')' r12
    let r14 ← chr ';' (wsS r13)
    pure ((t, name, n), r14) : Option ((Str × Str × Str) × Str))
  match (if first then body s else none) with
  | some res => some res
  | none =>
    match s with
    | ';' :: r => body r
    | _ => none

/-- Pattern (d), scalar form: `(?:^|;) T* name = malloc(sizeof(T));`. -/
def mLhsScal (first : Bool) (s : Str) : Option ((Str × Str) × Str) :=
  let body := fun (r : Str) => (do
    let ((t, name), r10) ← lhsHead r
    let r11 ← chr ')' (wsS r10)
    let r12 ← chr ';' (wsS r11)
    pure ((t, name), r12) : Option ((Str × Str) × Str))
  match (if first then body s else none) with
  | some res => some res
  | none =>
    match s with
    | ';' :: r => body r
    | _ => none

/-- Pattern (e), cast form: `name = (T*) calloc(N, sizeof(T));` — captures
(name, T, N). -/
def mCallocCast (s : Str) : Option ((Str × Str × Str) × Str) := do
  let (name, r0) ← identP s
  let r1 ← runP [Pat.w, Pat.c '=', Pat.w, Pat.c '(', Pat.w] r0
  let (t, r2) ← identP (optStructPre r1)
  let r3 ← runP [Pat.w, Pat.c '*', Pat.w, Pat.c ')', Pat.w, Pat.l (sl ("calloc")),
    Pat.w, Pat.c '('] r2
  let (n, r4) ← grpUntil ',' r3
  let r5 ← runP [Pat.c ',', Pat.w, Pat.l (sl ("sizeof")), Pat.c '(', Pat.w] r4
  let r6 ← litP t (optStructPre r5)
  let r7 ← runP [Pat.w, Pat.c ')', Pat.w, Pat.c ')', Pat.w, Pat.c ';'] r6
  pure ((name, t, n), r7)

/-- Pattern (e), `sizeof(*name)` form: `name = calloc(N, sizeof(*name));` —
captures (name, N). -/
def mCallocSzPtr (s : Str) : Option ((Str × Str) × Str) := do
  let (name, r0) ← identP s
  let r1 ← runP [Pat.w, Pat.c '=', Pat.w, Pat.l (sl ("calloc")), Pat.w, Pat.c '('] r0
  let (n, r2) ← grpUntil ',' r1
  let r3 ← runP [Pat.c ',', Pat.w, Pat.l (sl ("sizeof")), Pat.c '(', Pat.w, Pat.c '*', Pat.w] r2
  let r4 ← litP name r3
  let r5 ← runP [Pat.w, Pat.c ')', Pat.w, Pat.c ')', Pat.w, Pat.c ';'] r4
  pure ((name, n), r5)

/-- Pattern `free\s*\(\s*(name)\s*\)\s*;`. -/
def mFreeCall (s : Str) : Option (Str × Str) := do
  let r ← lit ("free") s
  let r2 ← chr '(' (wsS r)
  let (n, r3) ← identP (wsS r2)
  let r4 ← chr ')' (wsS r3)
  let r5 ← chr ';' (wsS r4)
  pure (n, r5)

/-- The element-type recovery of `repl_sizeof_ptr`: use the cast type when
present, otherwise the declared type of `name` with stars and spaces
removed, otherwise `int`. -/
def szPtrType (types : List (Str × Str)) (name : Str) (tOpt : Option Str) : Str :=
  let t1 : Str := match tOpt with
    | some t => t
    | none =>
      match alookup types name with
      | some decl => (decl.filter (· ≠ '*')).filter (· ≠ ' ')
      | none => []
  if t1 = [] then sl ("int") else t1

/-- Pass (a) with `repl_array`: record array-kind and emit
`name = new T[n];`, unless `name` is realloc-excluded (then keep the matched
text unchanged). -/
def passArr (rs : List Str) (al : Alloc) (code : Str) : Alloc × Str :=
  reSubSt (fun al s => (mMallocArr s).map fun pr =>
    let name := pr.1.1
    if elemS rs name then (al, s.take (s.length - pr.2.length), pr.2)
    else ((name, AKind.arr) :: al,
      name ++ sl (" = new ") ++ pr.1.2.1 ++ [ '[' ] ++ pr.1.2.2 ++ sl ("];"), pr.2))
    al code

/-- Pass (b) with `repl_scalar`: record scalar-kind, emit `name = new T;`. -/
def passScal (rs : List Str) (al : Alloc) (code : Str) : Alloc × Str :=
  reSubSt (fun al s => (mMallocScal s).map fun pr =>
    let name := pr.1.1
    if elemS rs name then (al, s.take (s.length - pr.2.length), pr.2)
    else ((name, AKind.scal) :: al,
      name ++ sl (" = new ") ++ pr.1.2 ++ [';'], pr.2)) al code

/-- Pass (c) with `repl_sizeof_ptr`: element type from the cast or the type
index, array-kind exactly when the `* N` part is present. -/
def passSzPtr (rs : List Str) (types : List (Str × Str)) (al : Alloc) (code : Str) :
    Alloc × Str :=
  reSubSt (fun al s => (mMallocSzPtr s).map fun pr =>
    let name := pr.1.1
    if elemS rs name then (al, s.take (s.length - pr.2.length), pr.2)
    else
      let t := szPtrType types name pr.1.2.1
      match pr.1.2.2 with
      | some n => ((name, AKind.arr) :: al,
          name ++ sl (" = new ") ++ t ++ [ '[' ] ++ n ++ sl ("];"), pr.2)
      | none => ((name, AKind.scal) :: al,
          name ++ sl (" = new ") ++ t ++ [';'], pr.2)) al code

/-- Pass (d), array form, with `repl_lhs_type_array`: emits
`T* name = new T[n];` (the consumed `(?:^|;)` lead is not restored). -/
def passLhsArr (rs : List Str) (al : Alloc) (code : Str) : Alloc × Str :=
  reSub0 (fun first al s => (mLhsArr first s).map fun pr =>
    let t := pr.1.1
    let name := pr.1.2.1
    if elemS rs name then (al, s.take (s.length - pr.2.length), pr.2)
    else ((name, AKind.arr) :: al,
      t ++ sl ("* ") ++ name ++ sl (" = new ") ++ t ++ [ '[' ] ++ pr.1.2.2 ++ sl ("];"),
      pr.2)) al code

/-- Pass (d), scalar form, with `repl_lhs_type_scalar`. -/
def passLhsScal (rs : List Str) (al : Alloc) (code : Str) : Alloc × Str :=
  reSub0 (fun first al s => (mLhsScal first s).map fun pr =>
    let t := pr.1.1
    let name := pr.1.2
    if elemS rs name then (al, s.take (s.length - pr.2.length), pr.2)
    else ((name, AKind.scal) :: al,
      t ++ sl ("* ") ++ name ++ sl (" = new ") ++ t ++ [';'], pr.2)) al code

/-- Pass (e), cast form, with `repl_calloc_cast`: scalar exactly when the
stripped count is the literal `1`. -/
def passCallocCast (rs : List Str) (al : Alloc) (code : Str) : Alloc × Str :=
  reSubSt (fun al s => (mCallocCast s).map fun pr =>
    let name := pr.1.1
    if elemS rs name then (al, s.take (s.length - pr.2.length), pr.2)
    else if pyStrip pr.1.2.2 = sl ("1") then
      ((name, AKind.scal) :: al, name ++ sl (" = new ") ++ pr.1.2.1 ++ [';'], pr.2)
    else
      ((name, AKind.arr) :: al,
        name ++ sl (" = new ") ++ pr.1.2.1 ++ [ '[' ] ++ pr.1.2.2 ++ sl ("];"), pr.2))
    al code

/-- Pass (e), `sizeof(*name)` form, with `repl_calloc_sizeof_ptr`. -/
def passCallocSzPtr (rs : List Str) (types : List (Str × Str)) (al : Alloc) (code : Str) :
    Alloc × Str :=
  reSubSt (fun al s => (mCallocSzPtr s).map fun pr =>
    let name := pr.1.1
    if elemS rs name then (al, s.take (s.length - pr.2.length), pr.2)
    else
      let t := szPtrType types name none
      if pyStrip pr.1.2 = sl ("1") then
        ((name, AKind.scal) :: al, name ++ sl (" = new ") ++ t ++ [';'], pr.2)
      else
        ((name, AKind.arr) :: al,
          name ++ sl (" = new ") ++ t ++ [ '[' ] ++ pr.1.2 ++ sl ("];"), pr.2)) al code

/-- The `free` pass with `repl_free`: `delete[]` when recorded array-kind,
otherwise `delete` (also for unrecorded names; no realloc check). -/
def passFree (al : Alloc) (code : Str) : Alloc × Str :=
  reSubSt (fun al s => (mFreeCall s).map fun pr =>
    match alookup al pr.1 with
    | some AKind.arr => (al, sl ("delete[] ") ++ pr.1 ++ [';'], pr.2)
    | _ => (al, sl ("delete ") ++ pr.1 ++ [';'], pr.2)) al code

/-- `_convert_malloc_free_to_new_delete(code, types)`: the realloc-exclusion
scan, then the seven allocation substitutions in source order threading the
allocation-kind record, then the `free` substitution consulting that record
(note: `repl_free` performs no realloc check). -/
def convMallocFree (code : Str) (types : List (Str × Str)) : Str :=
  let rs := reallocNames code
  let s1 := passArr rs [] code
  let s2 := passScal rs s1.1 s1.2
  let s3 := passSzPtr rs types s2.1 s2.2
  let s4 := passLhsArr rs s3.1 s3.2
  let s5 := passLhsScal rs s4.1 s4.2
  let s6 := passCallocCast rs s5.1 s5.2
  let s7 := passCallocSzPtr rs types s6.1 s6.2
  (passFree s7.1 s7.2).2

/-! ## `convert_c_to_cpp` -/

/-- Matcher for `\bstruct\s+(Tag)\s*\*` with replacement `Tag*` (struct-tag
elision before pointer declarators). -/
def mStructStar (prevW : Bool) (s : Str) : Option (Str × Str) :=
  if prevW then none
  else do
    let r ← lit ("struct") s
    let r ← ws1 r
    let (t, r2) ← identP r
    let r3 ← chr '*' (wsS r2)
    pure (t ++ ['*'], r3)

/-- The struct-tag elision pass. -/
def subStructStar (code : Str) : Str := reSubW mStructStar code

/-- `convert_c_to_cpp(code)`: include substitution, type-index construction,
per-line printf/scanf rewriting (splitlines then rejoin with newlines),
malloc/free rewriting, struct-tag elision, `NULL` -> `nullptr`. -/
def convert_c_to_cpp (code : Str) : Str :=
  let code := subInclStdio code
  let types := inferDeclTypes code
  let code := joinNL ((splitlinesPy code).map fun l => subScanfLine (subPrintfLine l))
  let code := convMallocFree code types
  let code := subStructStar code
  subWord ("NULL") ("nullptr") code

/-! ## Concrete programs used to settle the claims -/

/-- A program whose pointer `p` is passed to `realloc` and also has a cast
malloc allocation and a `free` statement. -/
def c2ex : Str := sl ("p = (int*)malloc(sizeof(int));\nq = realloc(p, 2);\nfree(p);")

/-- Its translation: the malloc statement is untouched, but `free(p);` is
rewritten to `delete p;` by the scalar fallback of `repl_free`. -/
def c2out : Str := sl ("p = (int*)malloc(sizeof(int));\nq = realloc(p, 2);\ndelete p;")

/-- A claim-shaped printf statement whose literal has no escapes. -/
def c3ex : Str := sl ("printf(\"x=%d\\n\", x);")

/-- Its translation, exactly as the claim describes. -/
def c3out : Str := sl ("std::cout << \"x=\" << (x) << std::endl;")

/-- A printf statement whose literal fragment contains a backslash escape
(the two source characters backslash, `t`). -/
def c3esc : Str := sl ("printf(\"a\\tb%d\\n\", x);")

/-- Its actual translation: the fragment is re-escaped to backslash,
backslash, `t`, not preserved verbatim. -/
def c3escOut : Str := sl ("std::cout << \"a\\\\tb\" << (x) << std::endl;")

/-- The output the claim's verbatim reading would require. -/
def c3escClaim : Str := sl ("std::cout << \"a\\tb\" << (x) << std::endl;")

/-- The scanf statement of the claim. -/
def c4ex : Str := sl ("scanf(\"%d %f\", &a, &b);")

/-- Its translation. -/
def c4out : Str := sl ("std::cin >> (a) >> (b);")

/-- Two specifiers, one argument: the second specifier has no argument. -/
def c5exMoreSpecs : Str := sl ("printf(\"%d %d\\n\", x);")

/-- A quoted copy of the unmatched specifier is inserted as a placeholder. -/
def c5outMoreSpecs : Str := sl ("std::cout << (x) << \" \" << \"%d\" << std::endl;")

/-- One specifier, two arguments: `y` is in excess. -/
def c5exMoreArgs : Str := sl ("printf(\"%d\\n\", x, y);")

/-- The excess argument `y` is silently dropped. -/
def c5outMoreArgs : Str := sl ("std::cout << (x) << std::endl;")

/-- The array-new statement of the claim. -/
def c6exArr : Str := sl ("new Widget[10];")

/-- Its actual translation: no space between the cast and `malloc`. -/
def c6outArr : Str := sl ("(Widget*)malloc(sizeof(Widget) * (10));")

/-- The output the claim requires (with a space after the cast). -/
def c6claimArr : Str := sl ("(Widget*) malloc(sizeof(Widget) * (10));")

/-- A scalar-new statement. -/
def c6exScal : Str := sl ("new Widget;")

/-- Its actual translation. -/
def c6outScal : Str := sl ("(Widget*)malloc(sizeof(Widget));")

/-- The array-delete statement of the claim. -/
def c6exDelArr : Str := sl ("delete[] w;")

/-- A scalar-delete statement. -/
def c6exDel : Str := sl ("delete w;")

/-- The common translation of both delete forms. -/
def c6outFree : Str := sl ("free(w);")

/-- Declarations of each primitive type followed by a cout chain over bare
identifiers, a dereference, and an undeclared identifier `g`. -/
def c7ex : Str :=
  sl ("int a;\nlong b;\nfloat c;\ndouble d;\nchar e;\nchar *f;\nstd::cout << a << b << c << d << e << f << *f << g << std::endl;")

/-- Its translation: one specifier per value token, chosen from the declared
type (`%c` for `*f` through the pointee type, `%d` for unresolved `g`). -/
def c7out : Str :=
  sl ("int a;\nlong b;\nfloat c;\ndouble d;\nchar e;\nchar *f;\nprintf(\"%d%ld%f%lf%c%s%c%d\\n\", a, b, c, d, e, f, *f, g);")

/-- A cin chain whose first target is declared `float` (and others are not
declared at all). -/
def c8ex : Str := sl ("float x;\nstd::cin >> x >> y >> z[0];")

/-- Its translation: `%d` for every target regardless of type, `&` prepended
to each target expression. -/
def c8out : Str := sl ("float x;\nscanf(\"%d %d %d\", &x, &y, &z[0]);")

/-- A C line containing `NULL` inside a string literal and a comment. -/
def c10exC : Str := sl ("s = \"NULL\"; /* NULL */")

/-- Both occurrences are replaced. -/
def c10outC : Str := sl ("s = \"nullptr\"; /* nullptr */")

/-- A C++ line with `true`, `false`, `bool`, `nullptr` inside a string. -/
def c10exCpp : Str := sl ("s = \"true false bool nullptr\";")

/-- All four tokens are replaced inside the literal. -/
def c10outCpp : Str := sl ("s = \"1 0 int NULL\";")

/-! ## The claims -/

/-- C1: both top-level translation functions are total Lean functions (no
partiality, no exceptions): for every input text each returns a string.
Totality holds by construction of the embedding, whose recursions are all
structurally bounded. -/
theorem c1_translators_total :
    ∀ code : Str, ∃ cpp cc : Str, convert_c_to_cpp code = cpp ∧ convert_cpp_to_c code = cc :=
  fun code => ⟨convert_c_to_cpp code, convert_cpp_to_c code, rfl, rfl⟩

/-- C2, counterexample: in `c2ex` the identifier `p` is a realloc first
argument and has a `free(p);` statement, yet the output of
`convert_c_to_cpp` no longer contains `free(p);` — the free statement is
not reproduced byte-identically. -/
theorem c2_free_not_untouched :
    elemS (reallocNames c2ex) (sl ("p")) = true ∧
    containsSub c2ex (sl ("free(p);")) = true ∧
    containsSub (convert_c_to_cpp c2ex) (sl ("free(p);")) = false :=
  ⟨rfl, rfl, rfl⟩

/-- C2, amended: a realloc-excluded identifier has its malloc/calloc
allocation statements reproduced byte-identical, but its `free(p);`
statements are rewritten to `delete p;` by the scalar fallback of
`repl_free` (which performs no realloc check and finds no recorded
allocation kind for excluded identifiers). -/
theorem c2_realloc_amended :
    convert_c_to_cpp c2ex = c2out ∧
    containsSub c2out (sl ("p = (int*)malloc(sizeof(int));")) = true ∧
    containsSub c2out (sl ("delete p;")) = true :=
  ⟨rfl, rfl, rfl⟩

/-- C3, counterexample: for a format literal with an interior backslash
escape the emitted literal fragment is re-escaped (backslash doubled), not
preserved verbatim as the claim requires. -/
theorem c3_not_verbatim :
    convert_c_to_cpp c3esc = c3escOut ∧ c3escOut ≠ c3escClaim :=
  ⟨rfl, by decide⟩

/-- C3, amended: a recognized single-line `printf("...%d...\n", x);` is
rewritten to `std::cout << "..." << (x) << std::endl;` with each format
specifier replaced in left-to-right order by the parenthesized text of the
next positional argument and the trailing `\n` replaced by one trailing
`<< std::endl`; literal fragments are preserved up to re-escaping
(backslashes doubled, double quotes escaped), which is the identity on
escape-free fragments. -/
theorem c3_printf_amended :
    convert_c_to_cpp c3ex = c3out ∧ convert_c_to_cpp c3esc = c3escOut :=
  ⟨rfl, rfl⟩

/-- C4: `scanf("%d %f", &a, &b);` becomes exactly
`std::cin >> (a) >> (b);` — one `>>` insertion per argument in order, with
the leading `&` stripped. -/
theorem c4_scanf_exact : convert_c_to_cpp c4ex = c4out := rfl

/-- C5: with more specifiers than arguments, the unmatched specifier is
emitted as a quoted placeholder string insertion; with more arguments than
specifiers, the excess argument is silently dropped (it does not occur in
the output at all). -/
theorem c5_mismatch_heuristics :
    convert_c_to_cpp c5exMoreSpecs = c5outMoreSpecs ∧
    convert_c_to_cpp c5exMoreArgs = c5outMoreArgs ∧
    containsSub c5outMoreArgs (sl ("y")) = false :=
  ⟨rfl, rfl, rfl⟩

/-- C6, counterexample: `new Widget[10];` is rewritten to
`(Widget*)malloc(sizeof(Widget) * (10));` with no space between the cast
and `malloc`, not to the claimed `(Widget*) malloc(...)`. -/
theorem c6_cast_space :
    convert_cpp_to_c c6exArr = c6outArr ∧ c6outArr ≠ c6claimArr :=
  ⟨rfl, by decide⟩

/-- C6, amended: the allocation rewriting is purely lexical —
`new Type[N]` becomes `(Type*)malloc(sizeof(Type) * (N))`, `new Type`
becomes `(Type*)malloc(sizeof(Type))` (both without a space after the
cast), and both `delete[] name;` and `delete name;` become `free(name);`. -/
theorem c6_new_delete_amended :
    convert_cpp_to_c c6exArr = c6outArr ∧
    convert_cpp_to_c c6exScal = c6outScal ∧
    convert_cpp_to_c c6exDelArr = c6outFree ∧
    convert_cpp_to_c c6exDel = c6outFree :=
  ⟨rfl, rfl, rfl, rfl⟩

/-- C7: in a rewritten cout chain every non-literal, non-endl token
contributes the format specifier of its declaration-index type (`int` to
`%d`, `long` to `%ld`, `float` to `%f`, `double` to `%lf`, `char` to `%c`,
`char*` to `%s`, dereference through the pointee type, unresolved to `%d`)
and its text joins the printf argument list. -/
theorem c7_cout_specifiers : convert_cpp_to_c c7ex = c7out := rfl

/-- C8: a cin chain with n targets yields a scanf whose format string has
exactly n `%d` specifiers regardless of declared types, with `&` prepended
to each target in chain order. -/
theorem c8_cin_all_int : convert_cpp_to_c c8ex = c8out := rfl

/-- C9: both translators are pure deterministic functions of the input
text: two calls on equal inputs return identical outputs (the embedding has
no state beyond the per-call values). -/
theorem c9_pure_deterministic :
    ∀ s t : Str, s = t →
      convert_c_to_cpp s = convert_c_to_cpp t ∧ convert_cpp_to_c s = convert_cpp_to_c t := by
  intro s t h
  subst h
  exact ⟨rfl, rfl⟩

/-- C9, witness: the determinism theorem applied at a concrete input. -/
theorem c9_pure_deterministic_witness :
    convert_c_to_cpp (sl ("int x;")) = convert_c_to_cpp (sl ("int x;")) ∧
    convert_cpp_to_c (sl ("int x;")) = convert_cpp_to_c (sl ("int x;")) :=
  c9_pure_deterministic (sl ("int x;")) (sl ("int x;")) rfl

/-- C10: the word-boundary token substitutions apply anywhere in the text,
including inside string literals and comments: `NULL` becomes `nullptr`
inside a quoted literal and a comment under `convert_c_to_cpp`, and
`true`/`false`/`bool`/`nullptr` become `1`/`0`/`int`/`NULL` inside a quoted
literal under `convert_cpp_to_c`. -/
theorem c10_word_subs_everywhere :
    convert_c_to_cpp c10exC = c10outC ∧ convert_cpp_to_c c10exCpp = c10outCpp :=
  ⟨rfl, rfl⟩

end CConv
